import Mathlib

/-!
Shallow embedding of the core of `src/chatwork-client.mjs` (the
LLM-ChatWork-Reader/Writer CLI): the read pipeline (`runRead`), the message
normalizer (`normalizeReadMessage` and `stripCommonChatworkTags`), the time
expression parser (`parseUnixTime`), the credential resolver
(`resolveToken`) and the outbound body composer (`buildChatworkBody`),
together with theorems checking the specification's claims about them.

JavaScript conventions mirrored here: optional / possibly-missing string
and integer values are `Option`s, and JavaScript truthiness of an optional
string (absent or empty both falsy) is `jsTruthy`.  Machine numbers carried
by well-formed ChatWork records are modelled as `Int` (epoch seconds).
-/

namespace Chatwork

/-- A sender account as embedded in a raw ChatWork message record
(`rawMessage.account` in the source). -/
structure Account where
  account_id : Int
  name : String
deriving DecidableEq

/-- A raw message record as returned by the remote service
(`RawMessage` in the spec): message id, optional account, body text and
send time in epoch seconds. -/
structure RawMessage where
  message_id : String
  account : Option Account
  body : String
  send_time : Int
deriving DecidableEq

/-- The core-produced normalized record (`CanonicalMessage` in the spec),
mirroring the object literal built by `normalizeReadMessage`. -/
structure CanonicalMessage where
  roomId : String
  messageId : String
  sendTimeUnix : Int
  sendTimeIso : Option String
  accountId : Option Int
  accountName : Option String
  body : String
  rawBody : String
deriving DecidableEq

/-! ### Tag stripping (`stripCommonChatworkTags`)

The source applies three global regex replaces in sequence —
`\[To:\d+\]`, `\[rp aid=\d+ to=\d+-\d+\]`, and an alternation of the eight
literal block tags — then trims.  Each regex is embedded as a matcher on
`List Char` that, at a position where it matches, returns the rest of the
input after the match; `scanStrip` is the global leftmost replace-by-empty
loop (fuel-indexed, with fuel at least the input length so the fallback is
never reached: every match consumes at least one character). -/

/-- Matcher for the regex `\[To:\d+\]`. -/
def matchToTag : List Char → Option (List Char)
  | '[' :: 'T' :: 'o' :: ':' :: rest =>
    match rest.takeWhile Char.isDigit, rest.dropWhile Char.isDigit with
    | _ :: _, ']' :: tail => some tail
    | _, _ => none
  | _ => none

/-- Matcher for the regex `\[rp aid=\d+ to=\d+-\d+\]`. -/
def matchRpTag : List Char → Option (List Char)
  | '[' :: 'r' :: 'p' :: ' ' :: 'a' :: 'i' :: 'd' :: '=' :: rest =>
    match rest.takeWhile Char.isDigit, rest.dropWhile Char.isDigit with
    | _ :: _, ' ' :: 't' :: 'o' :: '=' :: rest2 =>
      match rest2.takeWhile Char.isDigit, rest2.dropWhile Char.isDigit with
      | _ :: _, '-' :: rest3 =>
        match rest3.takeWhile Char.isDigit, rest3.dropWhile Char.isDigit with
        | _ :: _, ']' :: tail => some tail
        | _, _ => none
      | _, _ => none
    | _, _ => none
  | _ => none

/-- Drop a literal pattern from the front of the input, if present. -/
def dropLit : List Char → List Char → Option (List Char)
  | [], cs => some cs
  | p :: ps, c :: cs => if p = c then dropLit ps cs else none
  | _ :: _, [] => none

/-- The eight literal block tags of the third replace, in alternation
order. -/
def blockTags : List (List Char) :=
  ["[info]".data, "[/info]".data, "[title]".data, "[/title]".data,
   "[code]".data, "[/code]".data, "[qt]".data, "[/qt]".data]

/-- Matcher for the block-tag alternation regex. -/
def matchBlockTag (cs : List Char) : Option (List Char) :=
  blockTags.findSome? (fun pat => dropLit pat cs)

/-- Global leftmost-match replace-by-empty-string, as performed by a
JavaScript `String.replace` with a `g`-flagged regex. -/
def scanStrip (m : List Char → Option (List Char)) : Nat → List Char → List Char
  | _, [] => []
  | 0, cs => cs
  | fuel + 1, c :: cs =>
    match m (c :: cs) with
    | some tail => scanStrip m fuel tail
    | none => c :: scanStrip m fuel cs

/-- Whitespace trim on a character list (JavaScript `String.trim`). -/
def trimChars (cs : List Char) : List Char :=
  (((cs.dropWhile Char.isWhitespace).reverse).dropWhile Char.isWhitespace).reverse

/-- Embeds `stripCommonChatworkTags` from the source: the three global replaces in
sequence, then trim. -/
def stripCommonChatworkTags (s : String) : String :=
  let p1 := scanStrip matchToTag s.data.length s.data
  let p2 := scanStrip matchRpTag p1.length p1
  let p3 := scanStrip matchBlockTag p2.length p2
  String.mk (trimChars p3)

/-! ### ISO-8601 rendering (`new Date(ms).toISOString()`) -/

/-- Zero-pad a natural number to two digits. -/
def pad2 (n : Nat) : String :=
  if n < 10 then "0" ++ toString n else toString n

/-- Zero-pad a natural number to four digits. -/
def pad4 (n : Nat) : String :=
  if n < 10 then "000" ++ toString n
  else if n < 100 then "00" ++ toString n
  else if n < 1000 then "0" ++ toString n
  else toString n

/-- Zero-pad a natural number to six digits (expanded-year form). -/
def pad6 (n : Nat) : String :=
  if n < 10 then "00000" ++ toString n
  else if n < 100 then "0000" ++ toString n
  else if n < 1000 then "000" ++ toString n
  else if n < 10000 then "00" ++ toString n
  else if n < 100000 then "0" ++ toString n
  else toString n

/-- Proleptic-Gregorian civil date from a count of days since the Unix
epoch (the standard `civil_from_days` algorithm used by date libraries):
returns `(year, month, day)`. -/
def civilFromDays (z0 : Int) : Int × Nat × Nat :=
  let z := z0 + 719468
  let era := z.fdiv 146097
  let doe := (z - era * 146097).toNat
  let yoe := (doe - doe / 1460 + doe / 36524 - doe / 146096) / 365
  let doy := doe - (365 * yoe + yoe / 4 - yoe / 100)
  let mp := (5 * doy + 2) / 153
  let d := doy - (153 * mp + 2) / 5 + 1
  let m := if mp < 10 then mp + 3 else mp - 9
  let y := (yoe : Int) + era * 400 + (if m ≤ 2 then 1 else 0)
  (y, m, d)

/-- UTC ISO-8601 rendering of an epoch-seconds value, as produced by
JavaScript `new Date(t * 1000).toISOString()` (milliseconds are always
zero here since the input is whole seconds). -/
def isoOfUnix (t : Int) : String :=
  let days := t.fdiv 86400
  let sod := (t - days * 86400).toNat
  let ymd := civilFromDays days
  let hh := sod / 3600
  let mm := sod % 3600 / 60
  let ss := sod % 60
  let ystr :=
    if 0 ≤ ymd.1 ∧ ymd.1 ≤ 9999 then pad4 ymd.1.toNat
    else (if ymd.1 < 0 then "-" else "+") ++ pad6 ymd.1.natAbs
  ystr ++ "-" ++ pad2 ymd.2.1 ++ "-" ++ pad2 ymd.2.2 ++ "T" ++
    pad2 hh ++ ":" ++ pad2 mm ++ ":" ++ pad2 ss ++ ".000Z"

/-! ### Message normalizer (`normalizeReadMessage`) -/

/-- Embeds `normalizeReadMessage` from the source.  For a well-formed record the
JavaScript coercions `String(rawMessage.body || '')` and
`Number(rawMessage.send_time || 0)` are identities, `?? null` on the
optional account fields is `Option.map`, and the ternary
`sendTimeUnix ? iso : null` tests for a nonzero send time. -/
def normalizeReadMessage (roomId : String) (m : RawMessage) (stripTags : Bool) :
    CanonicalMessage :=
  let rawBody := m.body
  let body := if stripTags then stripCommonChatworkTags rawBody else rawBody
  let sendTimeUnix := m.send_time
  { roomId := roomId
    messageId := m.message_id
    sendTimeUnix := sendTimeUnix
    sendTimeIso := if sendTimeUnix ≠ 0 then some (isoOfUnix sendTimeUnix) else none
    accountId := m.account.map Account.account_id
    accountName := m.account.map Account.name
    body := body
    rawBody := rawBody }

/-! ### Read pipeline (`runRead`, after the fetch) -/

/-- The filter parameters of the `read` command, after CLI parsing and the
coercions at the top of `runRead`: an optional numeric `limit`, the
optional parsed epoch bounds, the substring filter already coerced by
`options.contains ? String(options.contains) : ''` (so the empty string
means "no filter"), and the strip flag. -/
structure ReadOptions where
  limit : Option Int
  since : Option Int
  untilB : Option Int
  contains : String
  stripTags : Bool
deriving DecidableEq

/-- The payload resolved by `client.getRoomMessages`: either a JSON array
of raw messages, or any non-array value (null, string, object, …), which
`runRead` replaces by the empty array via `Array.isArray`. -/
inductive FetchPayload where
  | arr (msgs : List RawMessage)
  | nonArray
deriving DecidableEq

/-- Embeds `parseIntSafe` from the source: the value when it is a finite number,
else the fallback. -/
def parseIntSafe (v : Option Int) (fallback : Int) : Int :=
  v.getD fallback

/-- The effective limit computed by `runRead`:
`Math.max(1, Math.min(100, parseIntSafe(options.limit, 30)))`. -/
def effLimit (v : Option Int) : Int :=
  max 1 (min 100 (parseIntSafe v 30))

/-- The `since` filter predicate: `since !== undefined ? send_time >= since : true`. -/
def keepSince (b : Option Int) (m : RawMessage) : Bool :=
  match b with
  | some s => decide (s ≤ m.send_time)
  | none => true

/-- The `until` filter predicate: `until !== undefined ? send_time <= until : true`. -/
def keepUntil (b : Option Int) (m : RawMessage) : Bool :=
  match b with
  | some u => decide (m.send_time ≤ u)
  | none => true

/-- JavaScript `haystack.includes(needle)`: case-sensitive exact substring
containment. -/
def strIncludes (hay needle : String) : Bool :=
  decide (needle.data <:+: hay.data)

/-- The substring filter predicate:
`contains ? String(msg.body || '').includes(contains) : true`. -/
def keepContains (c : String) (m : RawMessage) : Bool :=
  if c = "" then true else strIncludes m.body c

/-- The time-window stage of the pipeline: the two `.filter` calls on the
parsed bounds. -/
def windowFiltered (since untilB : Option Int) (l : List RawMessage) :
    List RawMessage :=
  (l.filter (keepSince since)).filter (keepUntil untilB)

/-- Ascending send-time order used by the pipeline's
`.sort((a, b) => Number(a.send_time) - Number(b.send_time))`. -/
def msgLE (a b : RawMessage) : Prop :=
  a.send_time ≤ b.send_time

instance : DecidableRel msgLE := fun a b => Int.decLe a.send_time b.send_time

instance : IsTotal RawMessage msgLE :=
  ⟨fun a b => Int.le_total a.send_time b.send_time⟩

instance : IsTrans RawMessage msgLE :=
  ⟨fun _ _ _ h h2 => le_trans h h2⟩

/-- Filter chain followed by the ascending stable sort: everything of the
pipeline before the `slice(-limit)` truncation.  (JavaScript's
`Array.prototype.sort` with a consistent comparator is a stable sort; it
is modelled by the stable `insertionSort`.) -/
def filteredSorted (o : ReadOptions) (l : List RawMessage) : List RawMessage :=
  List.insertionSort msgLE
    ((windowFiltered o.since o.untilB l).filter (keepContains o.contains))

/-- JavaScript `slice(-k)` on a list: the last `k` elements (the whole list when it is
shorter). -/
def tailSlice (k : Nat) (l : List α) : List α :=
  l.drop (l.length - k)

/-- The post-fetch part of `runRead`: non-array guard, time-window filter,
substring filter, ascending sort, tail truncation to the effective limit,
then normalization of each surviving record. -/
def runRead (roomId : String) (o : ReadOptions) (payload : FetchPayload) :
    List CanonicalMessage :=
  let raw := match payload with
    | .arr l => l
    | .nonArray => []
  (tailSlice (effLimit o.limit).toNat (filteredSorted o raw)).map
    (fun m => normalizeReadMessage roomId m o.stripTags)

/-! ### Credential resolver (`resolveToken`) -/

/-- JavaScript `a || b` on optional strings: `b` when `a` is absent or
empty (falsy), else `a`. -/
def jsOr (a b : Option String) : Option String :=
  match a with
  | some s => if s = "" then b else some s
  | none => b

/-- Embeds `resolveToken` from the source: the five-way `||` chain over the
explicit `--token` value, the two environment variables, and the two keys
of the env-file map. -/
def resolveToken (token env1 env2 file1 file2 : Option String) : Option String :=
  jsOr token (jsOr env1 (jsOr env2 (jsOr file1 file2)))

/-- Collapse a JavaScript-falsy result (absent or empty) to `none`,
mirroring the caller's `if (!token)` test. -/
def normalizeTok (o : Option String) : Option String :=
  match o with
  | some s => if s = "" then none else some s
  | none => none

/-- Taken from the specification's words: the first non-empty value of an
ordered list of optional sources, absent when there is none. -/
def firstNonEmpty : List (Option String) → Option String
  | [] => none
  | o :: rest =>
    match normalizeTok o with
    | some v => some v
    | none => firstNonEmpty rest

/-! ### Body composer (`buildChatworkBody`) -/

/-- JavaScript truthiness of an optional string option: present and
non-empty. -/
def jsTruthy (o : Option String) : Bool :=
  match o with
  | some s => s ≠ ""
  | none => false

/-- Splitting on a single character, as JavaScript `String.split(',')`
(splitting the empty string yields `[""]`). -/
def splitOnCharAux (sep : Char) : List Char → List Char → List (List Char)
  | [], acc => [acc.reverse]
  | c :: cs, acc =>
    if c = sep then acc.reverse :: splitOnCharAux sep cs []
    else splitOnCharAux sep cs (c :: acc)

/-- JavaScript `String(to).split(',')`. -/
def splitCommas (s : String) : List String :=
  (splitOnCharAux ',' s.data []).map String.mk

/-- JavaScript `String.trim` (on our whitespace model). -/
def jsTrim (s : String) : String :=
  String.mk (trimChars s.data)

/-- The `[To:…]` lines pushed by `buildChatworkBody`: one per trimmed
non-empty entry of the comma-separated `to` option, guarded by the
option's truthiness. -/
def toLines (toOpt : Option String) : List String :=
  if jsTruthy toOpt then
    (((splitCommas (toOpt.getD "")).map jsTrim).filter (fun v => v ≠ "")).map
      (fun id => "[To:" ++ id ++ "]")
  else []

/-- JavaScript `Array.join('\n')`. -/
def joinLines : List String → String
  | [] => ""
  | [x] => x
  | x :: y :: xs => x ++ "\n" ++ joinLines (y :: xs)

/-- Embeds `buildChatworkBody` from the source: `[To:…]` lines, the reply-pair
validation (throwing when exactly one of the two reply options is truthy),
the single `[rp aid=… to=…-…]` directive when both are present, then the
message text, joined with newlines. -/
def buildChatworkBody (roomId messageBody : String)
    (toOpt replyAccount replyMessage : Option String) : Except String String :=
  let lines := toLines toOpt
  if (jsTruthy replyAccount && !jsTruthy replyMessage) ||
      (!jsTruthy replyAccount && jsTruthy replyMessage) then
    .error "Use --reply-account and --reply-message together."
  else
    let lines := if jsTruthy replyAccount && jsTruthy replyMessage then
        lines ++ ["[rp aid=" ++ replyAccount.getD "" ++ " to=" ++ roomId ++
          "-" ++ replyMessage.getD "" ++ "]"]
      else lines
    .ok (joinLines (lines ++ [messageBody]))

/-! ### Time expression parser (`parseUnixTime`)

`Date.parse` is a platform service, not repository code; it is passed in
as an oracle `dateParse : String → Option Int` returning the parsed
timestamp in milliseconds, or `none` where JavaScript returns `NaN`. -/

/-- The regex test `/^\d+$/`. -/
def isAllDigits (s : String) : Bool :=
  !s.data.isEmpty && s.data.all Char.isDigit

/-- JavaScript `Number(input)` on an all-digit string. -/
def digitsToNat (s : String) : Nat :=
  s.data.foldl (fun n c => 10 * n + (c.toNat - 48)) 0

/-- Embeds `parseUnixTime` from the source: absent or empty input means no
constraint; an all-digit string is literal epoch seconds; anything else
goes through `Date.parse` and is floored to whole seconds, or raises
`Invalid <optionName>: <input>` when unparsable. -/
def parseUnixTime (dateParse : String → Option Int) (input : Option String)
    (optionName : String) : Except String (Option Int) :=
  match input with
  | none => .ok none
  | some s =>
    if s = "" then .ok none
    else if isAllDigits s then .ok (some (digitsToNat s : Int))
    else
      match dateParse s with
      | some ms => .ok (some (ms.fdiv 1000))
      | none => .error ("Invalid " ++ optionName ++ ": " ++ s)

/-- Modelled from the spec: the platform timestamp parser (`Date.parse`)
is not repository code; this oracle fixes its documented behaviour on the
one date-only expression used by the specification's scenario, namely that
`"2024-01-01"` denotes midnight UTC of 2024-01-01 (in milliseconds). -/
def dateParseJan2024 : String → Option Int :=
  fun s => if s = "2024-01-01" then some 1704067200000 else none

/-! ### Helper lemmas -/

theorem normTok_jsOr (a b : Option String) :
    normalizeTok (jsOr a b) = (normalizeTok a).or (normalizeTok b) := by
  cases a with
  | none => rfl
  | some s => by_cases h : s = "" <;> simp [jsOr, normalizeTok, h, Option.or]

theorem firstNonEmpty_cons (o : Option String) (rest : List (Option String)) :
    firstNonEmpty (o :: rest) = (normalizeTok o).or (firstNonEmpty rest) := by
  cases h : normalizeTok o <;> simp [firstNonEmpty, h, Option.or]

theorem toLines_eq (toOpt : Option String) :
    toLines toOpt = (splitCommas (toOpt.getD "")).filterMap
      (fun v => if jsTrim v = "" then none else some ("[To:" ++ jsTrim v ++ "]")) := by
  have hgen : ∀ l : List String,
      ((l.map jsTrim).filter (fun v => !decide (v = ""))).map
          (fun id => "[To:" ++ id ++ "]") =
        l.filterMap (fun v => if jsTrim v = "" then none
          else some ("[To:" ++ jsTrim v ++ "]")) := by
    intro l
    induction l with
    | nil => rfl
    | cons x xs ih => by_cases h : jsTrim x = "" <;> simp [h, ih]
  cases toOpt with
  | none => decide
  | some t =>
    by_cases h : t = ""
    · subst h; decide
    · simp [toLines, jsTruthy, h, hgen]

theorem runRead_arr (roomId : String) (o : ReadOptions) (raws : List RawMessage) :
    runRead roomId o (.arr raws) =
      (tailSlice (effLimit o.limit).toNat (filteredSorted o raws)).map
        (fun m => normalizeReadMessage roomId m o.stripTags) := rfl

/-! ### Claim theorems -/

/-- C1: for every raw message set and option set, the read pipeline's output
is ascending by send-time, its length is exactly the smaller of the
effective limit and the number of matches, it is a tail-slice (a suffix) of
the ascending-sorted filtered sequence after normalization, its length is
at most the effective limit, the effective limit is always clamped into
`[1, 100]` and is `30` when the limit option is absent; the spec's scenario
(send-times `[100, 200, 50, 300]`, limit 2) yields send-times
`[200, 300]`. -/
theorem C1_read_pipeline_shape (roomId : String) (o : ReadOptions)
    (raws : List RawMessage) :
    List.Pairwise (fun a b => a.sendTimeUnix ≤ b.sendTimeUnix)
        (runRead roomId o (.arr raws))
    ∧ (runRead roomId o (.arr raws)).length =
        min (effLimit o.limit).toNat (filteredSorted o raws).length
    ∧ runRead roomId o (.arr raws) <:+
        (filteredSorted o raws).map (fun m => normalizeReadMessage roomId m o.stripTags)
    ∧ (runRead roomId o (.arr raws)).length ≤ (effLimit o.limit).toNat
    ∧ 1 ≤ effLimit o.limit ∧ effLimit o.limit ≤ 100
    ∧ effLimit none = 30
    ∧ (runRead "r" ⟨some 2, none, none, "", false⟩
        (.arr [⟨"a", none, "x", 100⟩, ⟨"b", none, "x", 200⟩,
               ⟨"c", none, "x", 50⟩, ⟨"d", none, "x", 300⟩])).map
        (fun c => c.sendTimeUnix) = [200, 300] := by
  have hsorted : (filteredSorted o raws).Pairwise msgLE :=
    List.sorted_insertionSort msgLE _
  have hdropPw : (tailSlice (effLimit o.limit).toNat (filteredSorted o raws)).Pairwise msgLE :=
    List.Pairwise.sublist (List.drop_sublist _ _) hsorted
  refine ⟨?_, ?_, ?_, ?_, le_max_left 1 _, max_le (by norm_num) (min_le_left _ _),
    by decide, by decide⟩
  · rw [runRead_arr]
    exact hdropPw.map _ (fun a b h => h)
  · rw [runRead_arr]
    simp only [List.length_map, tailSlice, List.length_drop]
    omega
  · rw [runRead_arr, tailSlice, List.map_drop]
    exact List.drop_suffix _ _
  · rw [runRead_arr]
    simp only [List.length_map, tailSlice, List.length_drop]
    omega

/-- C2: a record survives the time-window stage exactly when its send-time
is `≥ since` (when supplied) and `≤ until` (when supplied), both bounds
inclusive; and an inverted window (`since > until`) makes the whole read
pipeline produce the empty output. -/
theorem C2_time_window :
    (∀ (os ou : Option Int) (l : List RawMessage) (m : RawMessage),
      m ∈ windowFiltered os ou l ↔
        m ∈ l ∧ (∀ s, os = some s → s ≤ m.send_time) ∧
          (∀ u, ou = some u → m.send_time ≤ u))
    ∧ (∀ (s u : Int) (roomId : String) (o : ReadOptions) (l : List RawMessage),
        o.since = some s → o.untilB = some u → u < s →
          runRead roomId o (.arr l) = []) := by
  constructor
  · intro os ou l m
    unfold windowFiltered
    simp only [List.mem_filter]
    constructor
    · rintro ⟨⟨hm, hs⟩, hu⟩
      refine ⟨hm, ?_, ?_⟩
      · intro s hs'
        subst hs'
        simpa [keepSince] using hs
      · intro u hu'
        subst hu'
        simpa [keepUntil] using hu
    · rintro ⟨hm, hs, hu⟩
      refine ⟨⟨hm, ?_⟩, ?_⟩
      · cases os with
        | none => simp [keepSince]
        | some s => simpa [keepSince] using hs s rfl
      · cases ou with
        | none => simp [keepUntil]
        | some u => simpa [keepUntil] using hu u rfl
  · intro s u roomId o l hs hu hlt
    have hwin : windowFiltered o.since o.untilB l = [] := by
      rw [hs, hu]
      unfold windowFiltered
      rw [List.filter_eq_nil_iff]
      intro m hm
      have hkeep : s ≤ m.send_time := by
        simpa [keepSince] using (List.mem_filter.mp hm).2
      simp [keepUntil]
      omega
    rw [runRead_arr]
    simp [filteredSorted, hwin, tailSlice]

/-- C2 witness: a concrete inverted window (`since = 10`, `until = 5`)
yields the empty output on a concrete one-message fetch. -/
theorem C2_time_window_witness :
    runRead "r" ⟨none, some 10, some 5, "", false⟩ (.arr [⟨"a", none, "x", 7⟩]) = [] :=
  C2_time_window.2 10 5 "r" ⟨none, some 10, some 5, "", false⟩
    [⟨"a", none, "x", 7⟩] rfl rfl (by decide)

/-- C3: when a non-empty substring filter is supplied, the filter stage
retains exactly the records whose raw body contains the filter as a
case-sensitive exact substring (character-level infix) — the
stripped/normalized body plays no role. -/
theorem C3_substring_filter (c : String) (l : List RawMessage) (m : RawMessage)
    (h : c ≠ "") :
    m ∈ l.filter (keepContains c) ↔ m ∈ l ∧ c.data <:+: m.body.data := by
  simp [List.mem_filter, keepContains, h, strIncludes]

/-- C3 witness: the filter `"ell"` keeps the concrete message whose raw
body is `"hello"`. -/
theorem C3_substring_filter_witness :
    (⟨"a", none, "hello", 1⟩ : RawMessage) ∈
      List.filter (keepContains "ell") [⟨"a", none, "hello", 1⟩] :=
  (C3_substring_filter "ell" [⟨"a", none, "hello", 1⟩] ⟨"a", none, "hello", 1⟩
    (by decide)).mpr (by refine ⟨by simp, ?_⟩; decide)

/-- C4: the credential resolver returns the first non-empty value in the
fixed order explicit token, first environment variable, second environment
variable, first file key, second file key, and is absent when all five are
empty or missing; the spec's fall-through scenario on distinct concrete
values holds step by step. -/
theorem C4_token_precedence :
    (∀ e v1 v2 f1 f2 : Option String,
      normalizeTok (resolveToken e v1 v2 f1 f2) = firstNonEmpty [e, v1, v2, f1, f2])
    ∧ resolveToken (some "A") (some "B") (some "C") (some "D") (some "E") = some "A"
    ∧ resolveToken none (some "B") (some "C") (some "D") (some "E") = some "B"
    ∧ resolveToken none none (some "C") (some "D") (some "E") = some "C"
    ∧ resolveToken none none none (some "D") (some "E") = some "D"
    ∧ resolveToken none none none none (some "E") = some "E"
    ∧ normalizeTok (resolveToken none none none none none) = none := by
  refine ⟨?_, rfl, rfl, rfl, rfl, rfl, rfl⟩
  intro e v1 v2 f1 f2
  have hnil : firstNonEmpty [] = none := rfl
  simp [resolveToken, normTok_jsOr, firstNonEmpty_cons, hnil, Option.or_none]

/-- C5: the composed outbound body is the `[To:<id>]` lines (one per
trimmed non-empty entry of the comma-separated list, in input order,
duplicates preserved), then — exactly when both reply parameters are
truthy — the single reply directive embedding the reply account id, the
room id and the reply message id, then the message text as the final line;
`to = "1,2, 3"` yields first lines `[To:1]`, `[To:2]`, `[To:3]`. -/
theorem C5_body_layout :
    (∀ (roomId msg : String) (toOpt ra rm : Option String),
      jsTruthy ra = jsTruthy rm →
        buildChatworkBody roomId msg toOpt ra rm =
          .ok (joinLines
            (((splitCommas (toOpt.getD "")).filterMap
                (fun v => if jsTrim v = "" then none
                  else some ("[To:" ++ jsTrim v ++ "]")))
              ++ (if jsTruthy ra ∧ jsTruthy rm then
                    ["[rp aid=" ++ ra.getD "" ++ " to=" ++ roomId ++ "-" ++
                      rm.getD "" ++ "]"]
                  else [])
              ++ [msg])))
    ∧ buildChatworkBody "77" "hello" (some "1,2, 3") none none =
        .ok "[To:1]\n[To:2]\n[To:3]\nhello" := by
  refine ⟨?_, rfl⟩
  intro roomId msg toOpt ra rm h
  unfold buildChatworkBody
  rw [toLines_eq]
  cases hra : jsTruthy ra
  · have hrm : jsTruthy rm = false := by rw [← h, hra]
    simp [hra, hrm]
  · have hrm : jsTruthy rm = true := by rw [← h, hra]
    simp [hra, hrm]

/-- C5 witness: a concrete composition with an addressee and a complete
reply pair, checked against its literal output. -/
theorem C5_body_layout_witness :
    jsTruthy (some "2") = jsTruthy (some "3") ∧
      buildChatworkBody "1" "hi" (some "5") (some "2") (some "3") =
        .ok "[To:5]\n[rp aid=2 to=1-3]\nhi" :=
  ⟨rfl, by rw [C5_body_layout.1 "1" "hi" (some "5") (some "2") (some "3") rfl]; rfl⟩

/-- C6: composition fails — with the error naming both reply options as
required together — exactly when one of the two reply parameters is truthy
and the other is not; when both or neither are truthy it succeeds (the
composer is a pure function, so no network is involved in the failure). -/
theorem C6_reply_pair_validation (roomId msg : String)
    (toOpt ra rm : Option String) :
    ((buildChatworkBody roomId msg toOpt ra rm =
        .error "Use --reply-account and --reply-message together.") ↔
      jsTruthy ra ≠ jsTruthy rm)
    ∧ (jsTruthy ra = jsTruthy rm →
        ∃ s, buildChatworkBody roomId msg toOpt ra rm = .ok s) := by
  cases hra : jsTruthy ra <;> cases hrm : jsTruthy rm <;>
    simp [buildChatworkBody, hra, hrm]

/-- C6 witness: supplying only the reply account on concrete inputs fails
with the documented error. -/
theorem C6_reply_pair_validation_witness :
    buildChatworkBody "1" "hi" none (some "2") none =
      .error "Use --reply-account and --reply-message together." :=
  (C6_reply_pair_validation "1" "hi" none (some "2") none).1.mpr (by decide)

/-- C7: with the strip flag false the normalized body equals the raw body;
the raw body always equals the record's original body; the body is the
fixed function of the raw body and the strip flag alone; and every other
field of the canonical message is independent of the flag. -/
theorem C7_normalize_strip_flag (roomId : String) (m : RawMessage) (b : Bool) :
    (normalizeReadMessage roomId m false).body =
      (normalizeReadMessage roomId m false).rawBody
    ∧ (normalizeReadMessage roomId m b).rawBody = m.body
    ∧ (normalizeReadMessage roomId m b).body =
        (if b then stripCommonChatworkTags m.body else m.body)
    ∧ (normalizeReadMessage roomId m b).roomId =
        (normalizeReadMessage roomId m false).roomId
    ∧ (normalizeReadMessage roomId m b).messageId =
        (normalizeReadMessage roomId m false).messageId
    ∧ (normalizeReadMessage roomId m b).sendTimeUnix =
        (normalizeReadMessage roomId m false).sendTimeUnix
    ∧ (normalizeReadMessage roomId m b).sendTimeIso =
        (normalizeReadMessage roomId m false).sendTimeIso
    ∧ (normalizeReadMessage roomId m b).accountId =
        (normalizeReadMessage roomId m false).accountId
    ∧ (normalizeReadMessage roomId m b).accountName =
        (normalizeReadMessage roomId m false).accountName :=
  ⟨rfl, rfl, rfl, rfl, rfl, rfl, rfl, rfl, rfl⟩

/-- C8: the time parser returns no constraint on absent or empty input,
the literal integer on an all-digit string, the `Date.parse` milliseconds
floored to whole seconds on any other parsable string, and an error
carrying the option name and the raw value exactly when the oracle cannot
parse; the spec's scenarios for `"2024-01-01"` (midnight UTC 2024-01-01)
and `"1700000000"` hold. -/
theorem C8_time_bounds :
    (∀ (dp : String → Option Int) (nm : String),
      parseUnixTime dp none nm = .ok none ∧ parseUnixTime dp (some "") nm = .ok none)
    ∧ (∀ (dp : String → Option Int) (nm s : String),
        isAllDigits s = true →
          parseUnixTime dp (some s) nm = .ok (some (digitsToNat s)))
    ∧ (∀ (dp : String → Option Int) (nm s : String) (ms : Int),
        s ≠ "" → isAllDigits s = false → dp s = some ms →
          parseUnixTime dp (some s) nm = .ok (some (ms.fdiv 1000)))
    ∧ (∀ (dp : String → Option Int) (nm s : String),
        s ≠ "" → isAllDigits s = false → dp s = none →
          parseUnixTime dp (some s) nm =
            .error ("Invalid " ++ nm ++ ": " ++ s))
    ∧ parseUnixTime dateParseJan2024 (some "2024-01-01") "--since" = .ok (some 1704067200)
    ∧ isoOfUnix 1704067200 = "2024-01-01T00:00:00.000Z"
    ∧ parseUnixTime dateParseJan2024 (some "1700000000") "--since" =
        .ok (some 1700000000) := by
  refine ⟨fun dp nm => ⟨rfl, rfl⟩, ?_, ?_, ?_, rfl, by decide, rfl⟩
  · intro dp nm s hd
    have hne : s ≠ "" := by
      intro he
      subst he
      simp [isAllDigits] at hd
    simp [parseUnixTime, hne, hd]
  · intro dp nm s ms hne hd hdp
    simp [parseUnixTime, hne, hd, hdp]
  · intro dp nm s hne hd hdp
    simp [parseUnixTime, hne, hd, hdp]

/-- C8 witness: the digit branch on `"42"` and the error branch on
`"nope"` at concrete inputs. -/
theorem C8_time_bounds_witness :
    (isAllDigits "42" = true ∧
      parseUnixTime dateParseJan2024 (some "42") "--since" = .ok (some 42))
    ∧ ("nope" ≠ "" ∧ isAllDigits "nope" = false ∧
        parseUnixTime dateParseJan2024 (some "nope") "--since" =
          .error "Invalid --since: nope") :=
  ⟨⟨rfl, by rw [C8_time_bounds.2.1 dateParseJan2024 "--since" "42" rfl]; rfl⟩,
   ⟨by decide, rfl,
    by rw [C8_time_bounds.2.2.2.1 dateParseJan2024 "--since" "nope"
        (by decide) rfl rfl]; rfl⟩⟩

/-- C9 counterexample: a raw record with a negative send-time (legal JSON,
passed through unchanged by the code) makes `sendTimeUnix` negative, so
the claim's unconditional `sendTimeUnix ≥ 0` is false on the code. -/
theorem C9_counterexample :
    ¬ (0 ≤ (normalizeReadMessage "r" ⟨"m1", none, "b", -1⟩ false).sendTimeUnix) := by
  decide

/-- C9 (amended): when the raw record's send-time is non-negative, the
normalized `sendTimeIso` is null iff `sendTimeUnix` is zero, a nonzero
`sendTimeUnix` is rendered in ISO-8601, and `sendTimeUnix ≥ 0`. -/
theorem C9_amended_send_time (roomId : String) (m : RawMessage) (b : Bool)
    (h : 0 ≤ m.send_time) :
    ((normalizeReadMessage roomId m b).sendTimeIso = none ↔
      (normalizeReadMessage roomId m b).sendTimeUnix = 0)
    ∧ ((normalizeReadMessage roomId m b).sendTimeUnix ≠ 0 →
        (normalizeReadMessage roomId m b).sendTimeIso =
          some (isoOfUnix (normalizeReadMessage roomId m b).sendTimeUnix))
    ∧ 0 ≤ (normalizeReadMessage roomId m b).sendTimeUnix := by
  refine ⟨?_, ?_, h⟩
  · by_cases hz : m.send_time = 0 <;> simp [normalizeReadMessage, hz]
  · intro hnz
    simp only [normalizeReadMessage] at hnz ⊢
    simp [hnz]

/-- C9 witness: at a concrete non-negative send-time the ISO field is the
expected rendering. -/
theorem C9_amended_send_time_witness :
    (0 : Int) ≤ 1704067200 ∧
      (normalizeReadMessage "r" ⟨"m1", none, "b", 1704067200⟩ true).sendTimeIso =
        some "2024-01-01T00:00:00.000Z" := by
  refine ⟨by decide, ?_⟩
  have h := (C9_amended_send_time "r" ⟨"m1", none, "b", 1704067200⟩ true
    (by decide)).2.1 (by decide)
  rw [h]
  rfl

/-- C10: when the fetch resolves to a non-array payload the read pipeline
raises no error (it is a total function into plain lists past this guard)
and produces the empty output sequence. -/
theorem C10_non_array_payload (roomId : String) (o : ReadOptions) :
    runRead roomId o .nonArray = [] := by
  simp [runRead, filteredSorted, windowFiltered, tailSlice]

end Chatwork
